import Mathlib

/-!
Verification of the step sequencer in `setup-ubuntu-crostini.py`.

The script keeps an ordered registry `STEPS` of installation steps, each with a
name, a description, an apply function (`func`), a phase flag (`pre_reboot`) and
a detector.  `main()` checks the effective UID, splits the registry by phase,
evaluates the detectors, computes the pending list of the first unsatisfied
phase, asks for confirmation, executes the pending steps in order (asking again
after each failure) and prints a final banner.

The shallow embedding below threads an explicit system state through the
detectors and apply functions.  Python detectors can raise exceptions, so a
detector has type `σ → Except PyErr Bool`; Python's `all(...)` over a generator
short-circuits at the first `False`, while the list comprehension building the
pending list evaluates every detector of the phase, and both evaluation orders
are reproduced exactly.  An apply function returns the (possibly partially)
mutated state together with an optional uncaught exception.

Interactive input is modelled by explicit parameters: `proceed` is the answer
to the "Proceed?" prompt, and `cont n` is the answer to the n-th
"Continue anyway?" prompt.  The status display between lines 261 and 266 of the
source re-evaluates the detectors of the pending steps; since detectors are
functions of the unchanged state this re-evaluation returns the same values,
and the display is modelled by the list of pending step names (`shown`).
-/

set_option autoImplicit false

namespace Crostini

/-- Exceptions a Python-level operation of the script may raise. -/
inductive PyErr where
  | fileNotFound (path : String)
  | runtimeError (msg : String)
deriving DecidableEq, Repr

/-- `pre` is a leading segment of the character list. -/
def listIsPre : List Char → List Char → Bool
  | [], _ => true
  | _ :: _, [] => false
  | a :: as, b :: bs => a == b && listIsPre as bs

/-- `sub` occurs contiguously in the character list. -/
def listHasSub (sub : List Char) : List Char → Bool
  | [] => listIsPre sub []
  | c :: cs => listIsPre sub (c :: cs) || listHasSub sub cs

/-- Python's substring test `sub in s`. -/
def containsSub (s sub : String) : Bool := listHasSub sub.data s.data

/-- Python's `s.startswith(pre)`. -/
def pyStartsWith (s pre : String) : Bool := listIsPre pre.data s.data

/-- Python's `s.strip()` (whitespace stripped from both ends). -/
def pyStrip (s : String) : String :=
  String.mk (((s.data.dropWhile Char.isWhitespace).reverse.dropWhile
    Char.isWhitespace).reverse)

/-- Helper for `pySplitNl`: accumulates the current line (reversed). -/
def splitNlAux : List Char → List Char → List String
  | acc, [] => [String.mk acc.reverse]
  | acc, c :: cs =>
    if c == '\n' then String.mk acc.reverse :: splitNlAux [] cs
    else splitNlAux (c :: acc) cs

/-- Python's `s.splitlines()` on newline-separated text.  (Unlike Python, a
trailing newline yields a final empty piece; every use filters blank lines
first, so the two readings agree.) -/
def pySplitNl (s : String) : List String := splitNlAux [] s.data

/--
The slice of the container's state that the script's detectors and apply
functions inspect or modify.  `aptKeyOut` is the stdout of `apt-key list`
(`none` when the command raises), `sudoersContent` the content of
`/etc/sudoers.d/90-cloud-init-users` (`none` when the file does not exist),
`crosListContent` the content of `/etc/apt/sources.list.d/cros.list`,
`dpkgInstalled` the packages for which `dpkg -s` exits with code 0,
`crosMilestone` the content of `/dev/.cros_milestone`, and `hostnameInput`
the operator's answer to the hostname prompt.
-/
structure SystemState where
  aptKeyOut : Option String
  homeUbuntuExists : Bool
  sudoersContent : Option String
  updateGroupsExists : Bool
  crosListContent : Option String
  dpkgInstalled : List String
  fixedDebExists : Bool
  crosMilestone : Option String
  hostname : String
  hostnameInput : String
deriving DecidableEq, Repr

/-- CONFIG constant `CROS_REPO_BASE` of the script. -/
def CROS_REPO_BASE : String := "https://storage.googleapis.com/cros-packages"

/-- CONFIG constant `CROS_KEY_FINGERPRINT` of the script. -/
def CROS_KEY_FINGERPRINT : String := "1397BC53640DB551"

/-- Detector `gpg_keys_present`: both Ubuntu archive key fingerprints occur in
the output of `apt-key list`; any exception is caught and yields `False`. -/
def gpg_keys_present (st : SystemState) : Except PyErr Bool :=
  match st.aptKeyOut with
  | none => .ok false
  | some out =>
      .ok ((["7638D0442B90D010", "04EE7237B7D453EC"]).all (fun k => containsSub out k))

/-- Detector `groups_script_exists`: `~/update-groups` exists. -/
def groups_script_exists (st : SystemState) : Except PyErr Bool :=
  .ok st.updateGroupsExists

/-- Detector `default_user_removed`: `/home/ubuntu` is gone and no non-blank
line of `/etc/sudoers.d/90-cloud-init-users` starts with `ubuntu`.  The Python
`and` short-circuits, so the sudoers file is only read when `/home/ubuntu` is
absent; reading a missing file raises `FileNotFoundError`, uncaught here. -/
def default_user_removed (st : SystemState) : Except PyErr Bool :=
  if st.homeUbuntuExists then .ok false
  else
    match st.sudoersContent with
    | none => .error (.fileNotFound "/etc/sudoers.d/90-cloud-init-users")
    | some txt =>
        .ok (!((pySplitNl txt).any (fun l => (pyStrip l != "") && pyStartsWith l "ubuntu")))

/-- Detector `cros_repo_present`: `cros.list` exists and its stripped content
starts with `deb` and mentions `CROS_REPO_BASE`. -/
def cros_repo_present (st : SystemState) : Except PyErr Bool :=
  match st.crosListContent with
  | none => .ok false
  | some content =>
      let line := pyStrip content
      .ok (pyStartsWith line "deb" && containsSub line CROS_REPO_BASE)

/-- Detector `cros_key_present`: the Crostini key fingerprint occurs in
`apt-key list` output; exceptions are caught and yield `False`. -/
def cros_key_present (st : SystemState) : Except PyErr Bool :=
  match st.aptKeyOut with
  | none => .ok false
  | some out => .ok (containsSub out CROS_KEY_FINGERPRINT)

/-- Detector `binutils_installed`: `dpkg -s binutils` exits 0. -/
def binutils_installed (st : SystemState) : Except PyErr Bool :=
  .ok (st.dpkgInstalled.contains "binutils")

/-- Detector `cros_ui_config_fixed`: `cros-ui-config_fixed.deb` exists. -/
def cros_ui_config_fixed (st : SystemState) : Except PyErr Bool :=
  .ok st.fixedDebExists

/-- Detector `crostini_tools_installed`: both packages are installed. -/
def crostini_tools_installed (st : SystemState) : Except PyErr Bool :=
  .ok (st.dpkgInstalled.contains "cros-guest-tools" &&
       st.dpkgInstalled.contains "adwaita-icon-theme-full")

/-- Detector `common_tools_installed`: all six common packages are installed. -/
def common_tools_installed (st : SystemState) : Except PyErr Bool :=
  .ok ((["curl", "wget", "git", "vim", "nano", "htop"]).all
        (fun p => st.dpkgInstalled.contains p))

/-- Apply function `fix_gpg_keys`: fetches the two archive keys from a
keyserver (`check=False`) and runs `apt update`.  The effect of these network
commands on the `apt-key list` output is external and not determined by the
source, so the modelled state is unchanged; no claim depends on this step's
apply function. -/
def fix_gpg_keys (st : SystemState) : SystemState × Option PyErr :=
  (st, none)

/-- Apply function `capture_groups`: writes `~/update-groups` unless it already
exists; the `groups` query has a `try/except` fallback, so it never raises. -/
def capture_groups (st : SystemState) : SystemState × Option PyErr :=
  if st.updateGroupsExists then (st, none)
  else ({ st with updateGroupsExists := true }, none)

/-- Apply function `remove_default_user`: `userdel -r ubuntu` (removing
`/home/ubuntu`; modelled as succeeding, the call uses `check=False`), then the
lines starting with `ubuntu` are filtered out of the sudoers file when it
exists. -/
def remove_default_user (st : SystemState) : SystemState × Option PyErr :=
  let st1 := { st with homeUbuntuExists := false }
  match st1.sudoersContent with
  | none => (st1, none)
  | some txt =>
      let lines := (pySplitNl txt).filter (fun l => !(pyStartsWith l "ubuntu"))
      ({ st1 with sudoersContent := some (String.intercalate "\n" lines ++ "\n") }, none)

/-- Apply function `add_cros_repo`: writes the repo line for the milestone read
from `/dev/.cros_milestone` (default `stretch`), then fetches the Crostini key
(a network command whose effect on `apt-key list` output is external). -/
def add_cros_repo (st : SystemState) : SystemState × Option PyErr :=
  let milestone := (match st.crosMilestone with
    | some m => m.trim
    | none => "stretch")
  let line := "deb " ++ CROS_REPO_BASE ++ "/" ++ milestone ++ " " ++ milestone ++ " main\n"
  ({ st with crosListContent := some line }, none)

/-- Apply function `install_binutils` (`apt install`, modelled as succeeding). -/
def install_binutils (st : SystemState) : SystemState × Option PyErr :=
  ({ st with dpkgInstalled := "binutils" :: st.dpkgInstalled }, none)

/-- Apply function `patch_cros_ui_config`: returns at once when the fixed deb
exists, otherwise downloads and repacks the package; the repacking operates on
files outside the modelled state and is modelled as producing the fixed deb. -/
def patch_cros_ui_config (st : SystemState) : SystemState × Option PyErr :=
  if st.fixedDebExists then (st, none)
  else ({ st with fixedDebExists := true }, none)

/-- Apply function `install_crostini_tools`: installs both packages and deletes
the fixed deb. -/
def install_crostini_tools (st : SystemState) : SystemState × Option PyErr :=
  ({ st with
      dpkgInstalled := "cros-guest-tools" :: "adwaita-icon-theme-full" :: st.dpkgInstalled,
      fixedDebExists := false }, none)

/-- Apply function `install_common_tools`. -/
def install_common_tools (st : SystemState) : SystemState × Option PyErr :=
  ({ st with dpkgInstalled := ["curl", "wget", "git", "vim", "nano", "htop"] ++ st.dpkgInstalled },
   none)

/-- Apply function `apply_user_groups`: raises `RuntimeError` when the script
is missing, otherwise runs it and unlinks it. -/
def apply_user_groups (st : SystemState) : SystemState × Option PyErr :=
  if st.updateGroupsExists then ({ st with updateGroupsExists := false }, none)
  else (st, some (.runtimeError "update-groups script missing – run pre-reboot first"))

/-- Apply function `set_hostname`: reads a hostname (default `crostini` on
blank input) and sets it. -/
def set_hostname (st : SystemState) : SystemState × Option PyErr :=
  let h := st.hostnameInput.trim
  ({ st with hostname := if h == "" then "crostini" else h }, none)

/-- A registered step: the dictionary appended by `step(...)`. -/
structure Step (σ : Type) where
  name : String
  desc : String
  func : σ → σ × Option PyErr
  pre_reboot : Bool
  detector : σ → Except PyErr Bool

variable {σ : Type}

/-- Registry entry 1: `step("Fix GPG Keys", ...)`. -/
def stepFixGpgKeys : Step SystemState :=
  { name := "Fix GPG Keys", desc := "Import missing Ubuntu archive keys",
    func := fix_gpg_keys, pre_reboot := true, detector := gpg_keys_present }

/-- Registry entry 2: `step("Capture Default Groups", ...)`. -/
def stepCaptureGroups : Step SystemState :=
  { name := "Capture Default Groups", desc := "Save groups of the default 'ubuntu' user",
    func := capture_groups, pre_reboot := true, detector := groups_script_exists }

/-- Registry entry 3: `step("Remove Default ubuntu User", ...)`. -/
def stepRemoveDefaultUser : Step SystemState :=
  { name := "Remove Default ubuntu User", desc := "Delete cloud-init user & sudo entry",
    func := remove_default_user, pre_reboot := true, detector := default_user_removed }

/-- Registry entry 4: `step("Add Crostini Package Repo", ...)`, whose detector
is the conjunction `cros_repo_present() and cros_key_present()` (the Python
`and` short-circuits; both sides only raise inside their own `try/except`). -/
def stepAddCrosRepo : Step SystemState :=
  { name := "Add Crostini Package Repo", desc := "Enable cros-packages repository",
    func := add_cros_repo, pre_reboot := true,
    detector := fun st =>
      match cros_repo_present st with
      | .error e => .error e
      | .ok false => .ok false
      | .ok true => cros_key_present st }

/-- Registry entry 5: `step("Install binutils", ...)`. -/
def stepInstallBinutils : Step SystemState :=
  { name := "Install binutils", desc := "Required for .deb repacking",
    func := install_binutils, pre_reboot := true, detector := binutils_installed }

/-- Registry entry 6: `step("Patch cros-ui-config", ...)`. -/
def stepPatchCrosUiConfig : Step SystemState :=
  { name := "Patch cros-ui-config", desc := "Disable GTK dialog inhibition",
    func := patch_cros_ui_config, pre_reboot := true, detector := cros_ui_config_fixed }

/-- Registry entry 7: `step("Install Crostini Tools", ...)`. -/
def stepInstallCrostiniTools : Step SystemState :=
  { name := "Install Crostini Tools", desc := "cros-guest-tools + icon theme",
    func := install_crostini_tools, pre_reboot := true, detector := crostini_tools_installed }

/-- Registry entry 8: `step("Install Common Tools", ...)`. -/
def stepInstallCommonTools : Step SystemState :=
  { name := "Install Common Tools", desc := "curl, git, vim, etc.",
    func := install_common_tools, pre_reboot := true, detector := common_tools_installed }

/-- Registry entry 9: `step("Apply User Groups", ..., pre_reboot=False)`, whose
detector is `not groups_script_exists()`. -/
def stepApplyUserGroups : Step SystemState :=
  { name := "Apply User Groups", desc := "Restore groups to your account",
    func := apply_user_groups, pre_reboot := false,
    detector := fun st => .ok (!st.updateGroupsExists) }

/-- Registry entry 10: `step("Set Hostname", ..., pre_reboot=False)`, whose
detector is `lambda: False` (the step is always offered). -/
def stepSetHostname : Step SystemState :=
  { name := "Set Hostname", desc := "Optional hostname change",
    func := set_hostname, pre_reboot := false, detector := fun _ => .ok false }

/-- The global registry `STEPS`, in registration order. -/
def STEPS : List (Step SystemState) :=
  [stepFixGpgKeys, stepCaptureGroups, stepRemoveDefaultUser, stepAddCrosRepo,
   stepInstallBinutils, stepPatchCrosUiConfig, stepInstallCrostiniTools,
   stepInstallCommonTools, stepApplyUserGroups, stepSetHostname]

/-- `pre_steps = [s for s in STEPS if s["pre_reboot"]]`. -/
def pre_steps (steps : List (Step σ)) : List (Step σ) :=
  steps.filter (fun s => s.pre_reboot)

/-- `post_steps = [s for s in STEPS if not s["pre_reboot"]]`. -/
def post_steps (steps : List (Step σ)) : List (Step σ) :=
  steps.filter (fun s => !s.pre_reboot)

/-- `all(s["detector"]() for s in l)`: Python's `all` over a generator stops at
the first `False`, so detectors after it are not evaluated; an exception in an
evaluated detector propagates. -/
def allDetect : List (Step σ) → σ → Except PyErr Bool
  | [], _ => .ok true
  | s :: rest, st =>
    match s.detector st with
    | .error e => .error e
    | .ok b => if b then allDetect rest st else .ok false

/-- `[s for s in l if not s["detector"]()]`: the comprehension evaluates every
detector of the phase, left to right; the first exception propagates. -/
def pendingOf : List (Step σ) → σ → Except PyErr (List (Step σ))
  | [], _ => .ok []
  | s :: rest, st =>
    match s.detector st with
    | .error e => .error e
    | .ok b =>
      match pendingOf rest st with
      | .error e => .error e
      | .ok r => .ok (if b then r else s :: r)

/-- Boolean test "this step's detector returns `False` at `st`". -/
def detFalseB (st : σ) (s : Step σ) : Bool :=
  match s.detector st with
  | .ok false => true
  | _ => false

/-- Outcome of the execution loop: final state, names of the steps whose apply
function was invoked, and whether the loop ran past the last pending step
(`completed = false` means "Setup stopped." was printed and `main` returned). -/
structure ExecResult (σ : Type) where
  state : σ
  executed : List String
  completed : Bool
deriving DecidableEq, Repr

/-- The execution loop of `main` (lines 273-283): run each pending step in
order; a step that raises is caught and the operator is asked whether to
continue (`cont k` answers the k-th such prompt); declining stops the loop. -/
def execPending : List (Step σ) → σ → (Nat → Bool) → Nat → ExecResult σ
  | [], st, _, _ => ⟨st, [], true⟩
  | s :: rest, st, cont, k =>
    match s.func st with
    | (st1, none) =>
      let r := execPending rest st1 cont k
      ⟨r.state, s.name :: r.executed, r.completed⟩
    | (st1, some _) =>
      if cont k then
        let r := execPending rest st1 cont (k + 1)
        ⟨r.state, s.name :: r.executed, r.completed⟩
      else ⟨st1, [s.name], false⟩

/-- Observable outcome of one invocation of `main`. -/
inductive MainResult (σ : Type) where
  | exitPrivilege
  | uncaught (e : PyErr)
  | allDone (st : σ)
  | aborted (phasePre : Bool) (shown : List String) (st : σ)
  | stopped (phasePre : Bool) (shown : List String) (st : σ) (executed : List String)
  | finished (phasePre : Bool) (shown : List String) (st : σ) (executed : List String)
deriving DecidableEq, Repr

/-- The `main()` function of the script.  `euid` is `os.geteuid()`; `st` is the
system state at entry; `proceed` answers the "Proceed?" prompt; `cont` answers
the "Continue anyway?" prompts.  Mirrors lines 235-297 of the source: privilege
check, phase split, `pre_done`/`post_done` (both computed before the test),
"All steps already completed!", pending-list computation for the first
unsatisfied phase, display and confirmation, execution loop, final banner. -/
def main (euid : Nat) (steps : List (Step σ)) (st : σ) (proceed : Bool)
    (cont : Nat → Bool) : MainResult σ :=
  if euid ≠ 0 then .exitPrivilege
  else
    match allDetect (pre_steps steps) st with
    | .error e => .uncaught e
    | .ok preDone =>
      match allDetect (post_steps steps) st with
      | .error e => .uncaught e
      | .ok postDone =>
        if preDone && postDone then .allDone st
        else
          match (if !preDone then pendingOf (pre_steps steps) st
                 else pendingOf (post_steps steps) st) with
          | .error e => .uncaught e
          | .ok pending =>
            let shown := pending.map (fun s => s.name)
            if !proceed then .aborted (!preDone) shown st
            else
              let r := execPending pending st cont 0
              if r.completed then .finished (!preDone) shown r.state r.executed
              else .stopped (!preDone) shown r.state r.executed

/-- Process exit code of a run.  `sys.exit(1)` for the privilege check; CPython
terminates with status 1 on an unhandled exception; every other path returns
from `main` normally, exiting 0. -/
def exitCode : MainResult σ → Nat
  | .exitPrivilege => 1
  | .uncaught _ => 1
  | _ => 0

/-- The phase header and pending-step names displayed by a run (lines 261-266),
when the run reaches the display at all: `true` stands for "PRE-REBOOT". -/
def phaseShown : MainResult σ → Option (Bool × List String)
  | .aborted p sh _ => some (p, sh)
  | .stopped p sh _ _ => some (p, sh)
  | .finished p sh _ _ => some (p, sh)
  | _ => none

/-- The final banner printed after the execution loop (lines 285-297). -/
inductive Banner where
  | rebootInstruction
  | setupComplete
deriving DecidableEq, Repr

/-- Which final banner a run prints, if any. -/
def finalBanner : MainResult σ → Option Banner
  | .finished true _ _ _ => some .rebootInstruction
  | .finished false _ _ _ => some .setupComplete
  | _ => none

/-- Boolean test "this step's detector returns `True` at `st`". -/
def detTrueB (st : σ) (s : Step σ) : Bool :=
  match s.detector st with
  | .ok true => true
  | _ => false

instance exceptDecidableEq {ε α : Type} [DecidableEq ε] [DecidableEq α] :
    DecidableEq (Except ε α) := fun a b =>
  match a, b with
  | .error e1, .error e2 =>
    if h : e1 = e2 then .isTrue (by rw [h]) else .isFalse (fun hc => h (Except.error.inj hc))
  | .error _, .ok _ => .isFalse (fun hc => Except.noConfusion hc)
  | .ok _, .error _ => .isFalse (fun hc => Except.noConfusion hc)
  | .ok b1, .ok b2 =>
    if h : b1 = b2 then .isTrue (by rw [h]) else .isFalse (fun hc => h (Except.ok.inj hc))

/-- Operator that answers yes to every prompt. -/
def contTrue : Nat → Bool := fun _ => true

/-- Operator that answers no to every prompt. -/
def contFalse : Nat → Bool := fun _ => false

/-- Toy pre-reboot step over `Nat` states whose detector holds exactly on even
states; used to instantiate the generic sequencer theorems on concrete runs. -/
def tPreEven : Step Nat :=
  { name := "pre-even", desc := "detector holds on even states",
    func := fun n => (n + 1, none), pre_reboot := true,
    detector := fun n => .ok (n % 2 == 0) }

/-- Toy pre-reboot step whose detector always holds. -/
def tPreDone : Step Nat :=
  { name := "pre-done", desc := "detector always holds",
    func := fun n => (n + 2, none), pre_reboot := true,
    detector := fun _ => .ok true }

/-- Toy post-reboot step whose detector never holds. -/
def tPostNever : Step Nat :=
  { name := "post-never", desc := "detector never holds",
    func := fun n => (n + 10, none), pre_reboot := false,
    detector := fun _ => .ok false }

/-- Toy post-reboot step whose detector always holds. -/
def tPostDone : Step Nat :=
  { name := "post-done", desc := "detector always holds",
    func := fun n => (n + 20, none), pre_reboot := false,
    detector := fun _ => .ok true }

/-- Toy pre-reboot step whose apply function raises. -/
def tFailStep : Step Nat :=
  { name := "failing", desc := "apply function raises",
    func := fun n => (n + 100, some (.runtimeError "boom")), pre_reboot := true,
    detector := fun _ => .ok false }

/-- A fresh container: nothing installed, the default `ubuntu` user present. -/
def stFresh : SystemState :=
  { aptKeyOut := some "", homeUbuntuExists := true,
    sudoersContent := some "ubuntu ALL=(ALL) NOPASSWD:ALL",
    updateGroupsExists := false, crosListContent := none, dpkgInstalled := [],
    fixedDebExists := false, crosMilestone := none,
    hostname := "localhost", hostnameInput := "" }

/-- A state in which every pre-reboot detector returns `True`. -/
def stReady : SystemState :=
  { aptKeyOut := some "7638D0442B90D010 04EE7237B7D453EC 1397BC53640DB551",
    homeUbuntuExists := false,
    sudoersContent := some "",
    updateGroupsExists := true,
    crosListContent := some "deb https://storage.googleapis.com/cros-packages/126 126 main\n",
    dpkgInstalled := ["binutils", "cros-guest-tools", "adwaita-icon-theme-full",
                      "curl", "wget", "git", "vim", "nano", "htop"],
    fixedDebExists := true,
    crosMilestone := some "126", hostname := "localhost", hostnameInput := "" }

/-- A state with `/home/ubuntu` absent and the sudoers drop-in file missing. -/
def stCrash : SystemState :=
  { aptKeyOut := none, homeUbuntuExists := false, sudoersContent := none,
    updateGroupsExists := false, crosListContent := none, dpkgInstalled := [],
    fixedDebExists := false, crosMilestone := none,
    hostname := "localhost", hostnameInput := "" }

/-! ## Helper lemmas about the detector combinators -/

theorem detTrueB_of_ok {st : σ} {s : Step σ} {b : Bool} (hb : s.detector st = Except.ok b) :
    detTrueB st s = b := by
  cases b <;> simp [detTrueB, hb]

theorem detFalseB_of_ok {st : σ} {s : Step σ} {b : Bool} (hb : s.detector st = Except.ok b) :
    detFalseB st s = !b := by
  cases b <;> simp [detFalseB, hb]

theorem detTrueB_eq_true_iff (st : σ) (s : Step σ) :
    detTrueB st s = true ↔ s.detector st = Except.ok true := by
  unfold detTrueB
  cases h : s.detector st with
  | error e => simp
  | ok b => cases b <;> simp

theorem all_detTrueB_iff (l : List (Step σ)) (st : σ) :
    l.all (detTrueB st) = true ↔ ∀ s ∈ l, s.detector st = Except.ok true := by
  simp only [List.all_eq_true, detTrueB_eq_true_iff]

theorem exists_det_false_iff (l : List (Step σ)) (st : σ)
    (h : ∀ s ∈ l, ∃ b, s.detector st = Except.ok b) :
    (∃ s ∈ l, s.detector st = Except.ok false) ↔ l.all (detTrueB st) = false := by
  rw [← Bool.not_eq_true, all_detTrueB_iff]
  constructor
  · rintro ⟨s, hs, hf⟩ hall
    rw [hall s hs] at hf
    simp at hf
  · intro hnall
    obtain ⟨s, hs, hne⟩ := not_forall₂.mp hnall
    obtain ⟨b, hb⟩ := h s hs
    cases b
    · exact ⟨s, hs, hb⟩
    · exact absurd hb hne

theorem allDetect_eq_all (l : List (Step σ)) (st : σ)
    (h : ∀ s ∈ l, ∃ b, s.detector st = Except.ok b) :
    allDetect l st = Except.ok (l.all (detTrueB st)) := by
  induction l with
  | nil => rfl
  | cons s rest ih =>
    obtain ⟨b, hb⟩ := h s (List.mem_cons_self _ _)
    have hrest := ih (fun x hx => h x (List.mem_cons_of_mem _ hx))
    cases b
    · simp [allDetect, hb, detTrueB_of_ok hb, List.all_cons]
    · simp [allDetect, hb, detTrueB_of_ok hb, List.all_cons, hrest]

theorem pendingOf_eq_filter (l : List (Step σ)) (st : σ)
    (h : ∀ s ∈ l, ∃ b, s.detector st = Except.ok b) :
    pendingOf l st = Except.ok (l.filter (detFalseB st)) := by
  induction l with
  | nil => rfl
  | cons s rest ih =>
    obtain ⟨b, hb⟩ := h s (List.mem_cons_self _ _)
    have hrest := ih (fun x hx => h x (List.mem_cons_of_mem _ hx))
    cases b <;> simp [pendingOf, hb, hrest, List.filter_cons, detFalseB_of_ok hb]

theorem pendingOf_mem_det_false {l : List (Step σ)} {st : σ} {pend : List (Step σ)}
    (hp : pendingOf l st = Except.ok pend) :
    ∀ s ∈ pend, s.detector st = Except.ok false := by
  induction l generalizing pend with
  | nil =>
    simp only [pendingOf] at hp
    cases hp
    intro s hs
    exact absurd hs (List.not_mem_nil s)
  | cons x rest ih =>
    simp only [pendingOf] at hp
    cases hx : x.detector st with
    | error e => rw [hx] at hp; cases hp
    | ok b =>
      rw [hx] at hp
      cases hr : pendingOf rest st with
      | error e => rw [hr] at hp; cases hp
      | ok r =>
        rw [hr] at hp
        cases b with
        | false =>
          have h3 : x :: r = pend := by simpa using Except.ok.inj hp
          subst h3
          intro s hs
          rcases List.mem_cons.mp hs with h1 | h2
          · rw [h1]; exact hx
          · exact ih hr s h2
        | true =>
          have h3 : r = pend := by simpa using Except.ok.inj hp
          subst h3
          exact ih hr

/-- Under total detectors, `main 0` reduces to a match-free description:
completion test, pending list of the first unsatisfied phase, confirmation,
execution loop, final classification. -/
theorem main_eq_of_total (steps : List (Step σ)) (st : σ) (proceed : Bool)
    (cont : Nat → Bool) (htot : ∀ s ∈ steps, ∃ b, s.detector st = Except.ok b) :
    main 0 steps st proceed cont =
      (let preB := (pre_steps steps).all (detTrueB st)
       let postB := (post_steps steps).all (detTrueB st)
       if preB && postB then .allDone st
       else
         let pending := (if !preB then pre_steps steps else post_steps steps).filter (detFalseB st)
         let shown := pending.map (fun s => s.name)
         if !proceed then .aborted (!preB) shown st
         else
           let r := execPending pending st cont 0
           if r.completed then .finished (!preB) shown r.state r.executed
           else .stopped (!preB) shown r.state r.executed) := by
  have hpretot : ∀ s ∈ pre_steps steps, ∃ b, s.detector st = Except.ok b :=
    fun s hs => htot s (List.mem_of_mem_filter hs)
  have hposttot : ∀ s ∈ post_steps steps, ∃ b, s.detector st = Except.ok b :=
    fun s hs => htot s (List.mem_of_mem_filter hs)
  have hpre := allDetect_eq_all _ st hpretot
  have hpost := allDetect_eq_all _ st hposttot
  have hpendpre := pendingOf_eq_filter _ st hpretot
  have hpendpost := pendingOf_eq_filter _ st hposttot
  simp only [main, hpre, hpost, ne_eq, not_true_eq_false, if_false]
  cases hb1 : (pre_steps steps).all (detTrueB st) <;>
    cases hb2 : (post_steps steps).all (detTrueB st) <;>
      simp [hpendpre, hpendpost]

theorem allDetect_congr (l : List (Step σ)) {st1 st2 : σ}
    (h : ∀ s ∈ l, s.detector st1 = s.detector st2) :
    allDetect l st1 = allDetect l st2 := by
  induction l with
  | nil => rfl
  | cons s rest ih =>
    rw [allDetect, allDetect, h s (List.mem_cons_self _ _),
        ih (fun x hx => h x (List.mem_cons_of_mem _ hx))]

theorem pendingOf_congr (l : List (Step σ)) {st1 st2 : σ}
    (h : ∀ s ∈ l, s.detector st1 = s.detector st2) :
    pendingOf l st1 = pendingOf l st2 := by
  induction l with
  | nil => rfl
  | cons s rest ih =>
    rw [pendingOf, pendingOf, h s (List.mem_cons_self _ _),
        ih (fun x hx => h x (List.mem_cons_of_mem _ hx))]

/-! ## Claim theorems -/

/-- C1: On a privileged run whose detectors all return a boolean, if some
pre-reboot detector returns `False` the sequencer selects the PRE-REBOOT
phase, and if every pre-reboot detector returns `True` while some post-reboot
detector returns `False` it selects exactly the POST-REBOOT phase; in either
case the displayed pending work list consists of exactly the selected phase's
steps whose detector returns `False`, in registration order, and the phase
split preserves the registry's relative order (each phase's pending list is a
subsequence of the registry). -/
theorem phase_selection_pending (steps : List (Step σ)) (st : σ) (proceed : Bool)
    (cont : Nat → Bool) (htot : ∀ s ∈ steps, ∃ b, s.detector st = Except.ok b) :
    ((∃ s ∈ pre_steps steps, s.detector st = Except.ok false) →
      phaseShown (main 0 steps st proceed cont) =
        some (true, ((pre_steps steps).filter (detFalseB st)).map (fun s => s.name))) ∧
    ((∀ s ∈ pre_steps steps, s.detector st = Except.ok true) →
     (∃ s ∈ post_steps steps, s.detector st = Except.ok false) →
      phaseShown (main 0 steps st proceed cont) =
        some (false, ((post_steps steps).filter (detFalseB st)).map (fun s => s.name))) ∧
    ((pre_steps steps).filter (detFalseB st)).Sublist steps ∧
    ((post_steps steps).filter (detFalseB st)).Sublist steps := by
  have hpretot : ∀ s ∈ pre_steps steps, ∃ b, s.detector st = Except.ok b :=
    fun s hs => htot s (List.mem_of_mem_filter hs)
  have hposttot : ∀ s ∈ post_steps steps, ∃ b, s.detector st = Except.ok b :=
    fun s hs => htot s (List.mem_of_mem_filter hs)
  refine ⟨?_, ?_, ?_, ?_⟩
  · intro hsome
    have hb1 : (pre_steps steps).all (detTrueB st) = false :=
      (exists_det_false_iff _ _ hpretot).mp hsome
    rw [main_eq_of_total _ _ _ _ htot]
    cases proceed with
    | false => simp [hb1, phaseShown]
    | true =>
      cases hc : (execPending ((pre_steps steps).filter (detFalseB st)) st cont 0).completed <;>
        simp [hb1, hc, phaseShown]
  · intro hall hsome
    have hb1 : (pre_steps steps).all (detTrueB st) = true :=
      (all_detTrueB_iff _ _).mpr hall
    have hb2 : (post_steps steps).all (detTrueB st) = false :=
      (exists_det_false_iff _ _ hposttot).mp hsome
    rw [main_eq_of_total _ _ _ _ htot]
    cases proceed with
    | false => simp [hb1, hb2, phaseShown]
    | true =>
      cases hc : (execPending ((post_steps steps).filter (detFalseB st)) st cont 0).completed <;>
        simp [hb1, hb2, hc, phaseShown]
  · exact (List.filter_sublist _).trans (List.filter_sublist _)
  · exact (List.filter_sublist _).trans (List.filter_sublist _)

/-- C2: When every detector of both phases returns `True`, `main` reports that
all steps are already completed and returns (exit code 0), with the state
untouched and independently of any operator answer: no prompt matters and no
apply function runs. -/
theorem all_done_no_prompt (steps : List (Step σ)) (st : σ) (proceed : Bool)
    (cont : Nat → Bool) (hall : ∀ s ∈ steps, s.detector st = Except.ok true) :
    main 0 steps st proceed cont = MainResult.allDone st ∧
    exitCode (main 0 steps st proceed cont) = 0 := by
  have htot : ∀ s ∈ steps, ∃ b, s.detector st = Except.ok b :=
    fun s hs => ⟨true, hall s hs⟩
  have h1 : (pre_steps steps).all (detTrueB st) = true :=
    (all_detTrueB_iff _ _).mpr (fun s hs => hall s (List.mem_of_mem_filter hs))
  have h2 : (post_steps steps).all (detTrueB st) = true :=
    (all_detTrueB_iff _ _).mpr (fun s hs => hall s (List.mem_of_mem_filter hs))
  rw [main_eq_of_total _ _ _ _ htot]
  exact ⟨by simp [h1, h2], by simp [h1, h2, exitCode]⟩

/-- C3: In the execution loop, a step whose apply function raises is caught:
the loop does not propagate the exception but asks the operator whether to
continue.  If the operator declines, the loop stops with only that step
executed — no subsequent pending step runs — and the state it returns is the
step's partially mutated state; if the operator accepts, the loop continues
with the remaining pending steps from that partially mutated state. -/
theorem step_failure_decline_halts (s : Step σ) (rest : List (Step σ)) (st : σ)
    (cont : Nat → Bool) (k : Nat) (e : PyErr) (hfail : (s.func st).2 = some e) :
    (cont k = false → execPending (s :: rest) st cont k =
      { state := (s.func st).1, executed := [s.name], completed := false }) ∧
    (cont k = true → execPending (s :: rest) st cont k =
      { state := (execPending rest (s.func st).1 cont (k + 1)).state,
        executed := s.name :: (execPending rest (s.func st).1 cont (k + 1)).executed,
        completed := (execPending rest (s.func st).1 cont (k + 1)).completed }) := by
  rcases hsf : s.func st with ⟨st1, o⟩
  rw [hsf] at hfail
  simp only at hfail
  subst hfail
  constructor <;> intro hc <;> simp [execPending, hsf, hc]

/-- C4: Declining the confirmation prompt on a run that reached it makes `main`
return an abort report with exit code 0; the state in the result is the entry
state, unchanged — no apply function was executed. -/
theorem abort_leaves_state_unchanged (steps : List (Step σ)) (st : σ) (cont : Nat → Bool)
    (htot : ∀ s ∈ steps, ∃ b, s.detector st = Except.ok b)
    (hnot : ¬ ∀ s ∈ steps, s.detector st = Except.ok true) :
    main 0 steps st false cont =
      MainResult.aborted (!(pre_steps steps).all (detTrueB st))
        (((if !(pre_steps steps).all (detTrueB st) then pre_steps steps
           else post_steps steps).filter (detFalseB st)).map (fun s => s.name)) st ∧
    exitCode (main 0 steps st false cont) = 0 := by
  have hB : ((pre_steps steps).all (detTrueB st) && (post_steps steps).all (detTrueB st))
      = false := by
    by_contra hc
    rw [Bool.not_eq_false, Bool.and_eq_true] at hc
    apply hnot
    intro s hs
    by_cases hb : s.pre_reboot = true
    · exact (all_detTrueB_iff _ _).mp hc.1 s (List.mem_filter.mpr ⟨hs, hb⟩)
    · refine (all_detTrueB_iff _ _).mp hc.2 s (List.mem_filter.mpr ⟨hs, ?_⟩)
      simp at hb
      simp [hb]
  rw [main_eq_of_total _ _ _ _ htot]
  exact ⟨by simp [hB], by simp [hB, exitCode]⟩

/-- C5: Without elevated privilege (effective UID not 0), `main` prints a
message and exits with code 1 at once: the result does not depend on the
registry, on the system state, on the detectors, or on any operator answer,
so no detector is evaluated and no step executed. -/
theorem requires_root_exit1 (euid : Nat) (steps : List (Step σ)) (st : σ)
    (proceed : Bool) (cont : Nat → Bool) (h : euid ≠ 0) :
    main euid steps st proceed cont = MainResult.exitPrivilege ∧
    exitCode (main euid steps st proceed cont) = 1 := by
  exact ⟨by simp [main, h], by simp [main, h, exitCode]⟩

/-- C6: The reboot instruction is printed exactly when the run selected and
completed the pre-reboot phase's pending list, and the overall success report
exactly when it selected and completed the post-reboot phase's pending list. -/
theorem final_banner_matches_phase (steps : List (Step σ)) (st : σ) (proceed : Bool)
    (cont : Nat → Bool) (htot : ∀ s ∈ steps, ∃ b, s.detector st = Except.ok b) :
    (finalBanner (main 0 steps st proceed cont) = some Banner.rebootInstruction ↔
      proceed = true ∧ (∃ s ∈ pre_steps steps, s.detector st = Except.ok false) ∧
      (execPending ((pre_steps steps).filter (detFalseB st)) st cont 0).completed = true) ∧
    (finalBanner (main 0 steps st proceed cont) = some Banner.setupComplete ↔
      proceed = true ∧ (∀ s ∈ pre_steps steps, s.detector st = Except.ok true) ∧
      (∃ s ∈ post_steps steps, s.detector st = Except.ok false) ∧
      (execPending ((post_steps steps).filter (detFalseB st)) st cont 0).completed = true) := by
  have hpretot : ∀ s ∈ pre_steps steps, ∃ b, s.detector st = Except.ok b :=
    fun s hs => htot s (List.mem_of_mem_filter hs)
  have hposttot : ∀ s ∈ post_steps steps, ∃ b, s.detector st = Except.ok b :=
    fun s hs => htot s (List.mem_of_mem_filter hs)
  rw [main_eq_of_total _ _ _ _ htot, ← all_detTrueB_iff (pre_steps steps) st,
      exists_det_false_iff _ _ hpretot, exists_det_false_iff _ _ hposttot]
  cases hb1 : (pre_steps steps).all (detTrueB st) with
  | false =>
    cases proceed with
    | false => simp [hb1, finalBanner]
    | true =>
      cases hc : (execPending ((pre_steps steps).filter (detFalseB st)) st cont 0).completed <;>
        simp [hb1, hc, finalBanner]
  | true =>
    cases hb2 : (post_steps steps).all (detTrueB st) with
    | true => simp [hb1, hb2, finalBanner]
    | false =>
      cases proceed with
      | false => simp [hb1, hb2, finalBanner]
      | true =>
        cases hc : (execPending ((post_steps steps).filter (detFalseB st)) st cont 0).completed <;>
          simp [hb1, hb2, hc, finalBanner]

/-- C7: A step whose detector returns `True` at the current state is absent
from any pending list the sequencer computes at that state. -/
theorem detect_true_absent_from_pending (l : List (Step σ)) (st : σ) (s : Step σ)
    (htrue : s.detector st = Except.ok true) (pend : List (Step σ))
    (hp : pendingOf l st = Except.ok pend) : s ∉ pend := by
  intro hmem
  have hfalse := pendingOf_mem_det_false hp s hmem
  rw [htrue] at hfalse
  exact absurd (Except.ok.inj hfalse) (by simp)

/-- C8: Two privileged runs against states on which every registered detector
returns the same answer display the same phase header and the same pending
list, in the same order. -/
theorem pending_deterministic (steps : List (Step σ)) (st1 st2 : σ) (proceed : Bool)
    (cont : Nat → Bool) (h : ∀ s ∈ steps, s.detector st1 = s.detector st2) :
    phaseShown (main 0 steps st1 proceed cont) = phaseShown (main 0 steps st2 proceed cont) := by
  have hpre : allDetect (pre_steps steps) st1 = allDetect (pre_steps steps) st2 :=
    allDetect_congr _ (fun s hs => h s (List.mem_of_mem_filter hs))
  have hpost : allDetect (post_steps steps) st1 = allDetect (post_steps steps) st2 :=
    allDetect_congr _ (fun s hs => h s (List.mem_of_mem_filter hs))
  have hpp : pendingOf (pre_steps steps) st1 = pendingOf (pre_steps steps) st2 :=
    pendingOf_congr _ (fun s hs => h s (List.mem_of_mem_filter hs))
  have hqq : pendingOf (post_steps steps) st1 = pendingOf (post_steps steps) st2 :=
    pendingOf_congr _ (fun s hs => h s (List.mem_of_mem_filter hs))
  cases hA : allDetect (pre_steps steps) st2 with
  | error e => simp [main, hpre, hA]
  | ok preDone =>
    cases hB : allDetect (post_steps steps) st2 with
    | error e => simp [main, hpre, hpost, hA, hB]
    | ok postDone =>
      cases preDone with
      | true =>
        cases postDone with
        | true => simp [main, hpre, hpost, hA, hB, phaseShown]
        | false =>
          cases hP : pendingOf (post_steps steps) st2 with
          | error e => simp [main, hpre, hpost, hqq, hA, hB, hP]
          | ok pend =>
            cases proceed with
            | false => simp [main, hpre, hpost, hqq, hA, hB, hP, phaseShown]
            | true =>
              cases h1 : (execPending pend st1 cont 0).completed <;>
                cases h2 : (execPending pend st2 cont 0).completed <;>
                  simp [main, hpre, hpost, hqq, hA, hB, hP, h1, h2, phaseShown]
      | false =>
        cases hP : pendingOf (pre_steps steps) st2 with
        | error e => simp [main, hpre, hpost, hpp, hA, hB, hP]
        | ok pend =>
          cases proceed with
          | false => simp [main, hpre, hpost, hpp, hA, hB, hP, phaseShown]
          | true =>
            cases h1 : (execPending pend st1 cont 0).completed <;>
              cases h2 : (execPending pend st2 cont 0).completed <;>
                simp [main, hpre, hpost, hpp, hA, hB, hP, h1, h2, phaseShown]

/-! ## The concrete registry -/

theorem pre_steps_STEPS : pre_steps STEPS =
    [stepFixGpgKeys, stepCaptureGroups, stepRemoveDefaultUser, stepAddCrosRepo,
     stepInstallBinutils, stepPatchCrosUiConfig, stepInstallCrostiniTools,
     stepInstallCommonTools] := rfl

theorem post_steps_STEPS : post_steps STEPS = [stepApplyUserGroups, stepSetHostname] := rfl

theorem allDetect_post_STEPS (st : SystemState) :
    allDetect (post_steps STEPS) st = Except.ok false := by
  rw [post_steps_STEPS]
  cases h : st.updateGroupsExists <;>
    simp [allDetect, stepApplyUserGroups, stepSetHostname, h]

theorem pendingOf_post_STEPS (st : SystemState) :
    pendingOf (post_steps STEPS) st =
      Except.ok (if st.updateGroupsExists then [stepApplyUserGroups, stepSetHostname]
                 else [stepSetHostname]) := by
  rw [post_steps_STEPS]
  cases h : st.updateGroupsExists <;>
    simp [pendingOf, stepApplyUserGroups, stepSetHostname, h]

/-- C9: The detector of the post-reboot step "Set Hostname" returns `False` in
every system state; hence the post-reboot phase is never detected complete, the
"All steps already completed!" path of `main` is unreachable for the concrete
registry, and every privileged run entered with all pre-reboot detectors `True`
shows "Set Hostname" in its pending list. -/
theorem set_hostname_never_done :
    (∀ st : SystemState, stepSetHostname.detector st = Except.ok false) ∧
    (∀ st : SystemState, allDetect (post_steps STEPS) st ≠ Except.ok true) ∧
    (∀ (euid : Nat) (st : SystemState) (proceed : Bool) (cont : Nat → Bool) (st2 : SystemState),
      main euid STEPS st proceed cont ≠ MainResult.allDone st2) ∧
    (∀ (st : SystemState) (proceed : Bool) (cont : Nat → Bool),
      allDetect (pre_steps STEPS) st = Except.ok true →
      ∃ sh, phaseShown (main 0 STEPS st proceed cont) = some (false, sh) ∧
            "Set Hostname" ∈ sh) := by
  refine ⟨fun st => rfl, ?_, ?_, ?_⟩
  · intro st h
    rw [allDetect_post_STEPS st] at h
    exact absurd (Except.ok.inj h) (by simp)
  · intro euid st proceed cont st2
    by_cases he : euid = 0
    · subst he
      cases hA : allDetect (pre_steps STEPS) st with
      | error e => simp [main, hA]
      | ok b =>
        cases b with
        | true =>
          cases hP : pendingOf (post_steps STEPS) st with
          | error e => simp [main, hA, allDetect_post_STEPS st, hP]
          | ok pend =>
            cases proceed with
            | false => simp [main, hA, allDetect_post_STEPS st, hP]
            | true =>
              cases hc : (execPending pend st cont 0).completed <;>
                simp [main, hA, allDetect_post_STEPS st, hP, hc]
        | false =>
          cases hP : pendingOf (pre_steps STEPS) st with
          | error e => simp [main, hA, allDetect_post_STEPS st, hP]
          | ok pend =>
            cases proceed with
            | false => simp [main, hA, allDetect_post_STEPS st, hP]
            | true =>
              cases hc : (execPending pend st cont 0).completed <;>
                simp [main, hA, allDetect_post_STEPS st, hP, hc]
    · simp [main, he]
  · intro st proceed cont hpre
    have hpend := pendingOf_post_STEPS st
    cases hug : st.updateGroupsExists with
    | true =>
      simp only [hug, if_true] at hpend
      have hnames : List.map (fun s : Step SystemState => s.name)
          [stepApplyUserGroups, stepSetHostname] = ["Apply User Groups", "Set Hostname"] := rfl
      refine ⟨["Apply User Groups", "Set Hostname"], ?_, by simp⟩
      cases proceed with
      | false => simp [main, hpre, allDetect_post_STEPS st, hpend, hnames, phaseShown]
      | true =>
        cases hc : (execPending [stepApplyUserGroups, stepSetHostname] st cont 0).completed <;>
          simp [main, hpre, allDetect_post_STEPS st, hpend, hnames, hc, phaseShown]
    | false =>
      simp only [hug, if_false] at hpend
      have hnames : List.map (fun s : Step SystemState => s.name)
          [stepSetHostname] = ["Set Hostname"] := rfl
      refine ⟨["Set Hostname"], ?_, by simp⟩
      cases proceed with
      | false => simp [main, hpre, allDetect_post_STEPS st, hpend, hnames, phaseShown]
      | true =>
        cases hc : (execPending [stepSetHostname] st cont 0).completed <;>
          simp [main, hpre, allDetect_post_STEPS st, hpend, hnames, hc, phaseShown]

/-- C10: Detector exceptions are not caught by the sequencer: with
`/home/ubuntu` absent and the sudoers drop-in file missing, the "Remove Default
ubuntu User" detector raises `FileNotFoundError`, and a privileged run
terminates with that uncaught exception (non-zero exit) before any step is
displayed, confirmed or executed. -/
theorem detector_exception_uncaught (st : SystemState) (proceed : Bool) (cont : Nat → Bool)
    (h1 : st.homeUbuntuExists = false) (h2 : st.sudoersContent = none) :
    default_user_removed st =
      Except.error (PyErr.fileNotFound "/etc/sudoers.d/90-cloud-init-users") ∧
    main 0 STEPS st proceed cont =
      MainResult.uncaught (PyErr.fileNotFound "/etc/sudoers.d/90-cloud-init-users") ∧
    exitCode (main 0 STEPS st proceed cont) = 1 ∧
    phaseShown (main 0 STEPS st proceed cont) = none := by
  have hdet : default_user_removed st =
      Except.error (PyErr.fileNotFound "/etc/sudoers.d/90-cloud-init-users") := by
    simp [default_user_removed, h1, h2]
  obtain ⟨b1, hb1⟩ : ∃ b, gpg_keys_present st = Except.ok b := by
    cases hA : st.aptKeyOut with
    | none => exact ⟨false, by simp [gpg_keys_present, hA]⟩
    | some out =>
      exact ⟨(["7638D0442B90D010", "04EE7237B7D453EC"]).all (fun k => containsSub out k),
        by simp [gpg_keys_present, hA]⟩
  have hmain : main 0 STEPS st proceed cont =
      MainResult.uncaught (PyErr.fileNotFound "/etc/sudoers.d/90-cloud-init-users") := by
    cases hug : st.updateGroupsExists <;> cases b1 <;>
      simp [main, allDetect, pendingOf, pre_steps_STEPS, post_steps_STEPS,
            stepFixGpgKeys, stepCaptureGroups, stepRemoveDefaultUser,
            stepApplyUserGroups, stepSetHostname, groups_script_exists,
            hb1, hdet, hug]
  exact ⟨hdet, hmain, by rw [hmain]; rfl, by rw [hmain]; rfl⟩

/-! ## Concrete witnesses -/

theorem phase_selection_pending_witness :
    (∀ s ∈ ([tPreEven, tPostNever] : List (Step Nat)), ∃ b, s.detector 1 = Except.ok b) ∧
    (((∃ s ∈ pre_steps [tPreEven, tPostNever], s.detector 1 = Except.ok false) →
        phaseShown (main 0 [tPreEven, tPostNever] 1 true contTrue) =
          some (true, ((pre_steps [tPreEven, tPostNever]).filter
            (detFalseB (1 : Nat))).map (fun s => s.name))) ∧
     ((∀ s ∈ pre_steps [tPreEven, tPostNever], s.detector 1 = Except.ok true) →
      (∃ s ∈ post_steps [tPreEven, tPostNever], s.detector 1 = Except.ok false) →
        phaseShown (main 0 [tPreEven, tPostNever] 1 true contTrue) =
          some (false, ((post_steps [tPreEven, tPostNever]).filter
            (detFalseB (1 : Nat))).map (fun s => s.name))) ∧
     ((pre_steps [tPreEven, tPostNever]).filter
        (detFalseB (1 : Nat))).Sublist [tPreEven, tPostNever] ∧
     ((post_steps [tPreEven, tPostNever]).filter
        (detFalseB (1 : Nat))).Sublist [tPreEven, tPostNever]) :=
  ⟨by decide, phase_selection_pending [tPreEven, tPostNever] 1 true contTrue (by decide)⟩

theorem all_done_no_prompt_witness :
    (∀ s ∈ ([tPreDone, tPostDone] : List (Step Nat)), s.detector 0 = Except.ok true) ∧
    (main 0 [tPreDone, tPostDone] 0 false contFalse = MainResult.allDone 0 ∧
     exitCode (main 0 [tPreDone, tPostDone] 0 false contFalse) = 0) :=
  ⟨by decide, all_done_no_prompt [tPreDone, tPostDone] 0 false contFalse (by decide)⟩

theorem step_failure_decline_halts_witness :
    (tFailStep.func 0).2 = some (PyErr.runtimeError "boom") ∧
    ((contFalse 0 = false → execPending [tFailStep, tPreDone] 0 contFalse 0 =
        { state := (tFailStep.func 0).1, executed := [tFailStep.name], completed := false }) ∧
     (contFalse 0 = true → execPending [tFailStep, tPreDone] 0 contFalse 0 =
        { state := (execPending [tPreDone] (tFailStep.func 0).1 contFalse 1).state,
          executed := tFailStep.name ::
            (execPending [tPreDone] (tFailStep.func 0).1 contFalse 1).executed,
          completed := (execPending [tPreDone] (tFailStep.func 0).1 contFalse 1).completed })) :=
  ⟨by decide,
   step_failure_decline_halts tFailStep [tPreDone] 0 contFalse 0
     (PyErr.runtimeError "boom") (by decide)⟩

theorem abort_leaves_state_unchanged_witness :
    (∀ s ∈ ([tPreEven, tPostNever] : List (Step Nat)), ∃ b, s.detector 1 = Except.ok b) ∧
    (¬ ∀ s ∈ ([tPreEven, tPostNever] : List (Step Nat)), s.detector 1 = Except.ok true) ∧
    (main 0 [tPreEven, tPostNever] 1 false contTrue =
      MainResult.aborted (!(pre_steps [tPreEven, tPostNever]).all (detTrueB (1 : Nat)))
        (((if !(pre_steps [tPreEven, tPostNever]).all (detTrueB (1 : Nat))
            then pre_steps [tPreEven, tPostNever]
            else post_steps [tPreEven, tPostNever]).filter
              (detFalseB (1 : Nat))).map (fun s => s.name)) 1 ∧
     exitCode (main 0 [tPreEven, tPostNever] 1 false contTrue) = 0) :=
  ⟨by decide, by decide,
   abort_leaves_state_unchanged [tPreEven, tPostNever] 1 contTrue (by decide) (by decide)⟩

theorem requires_root_exit1_witness :
    (3 : Nat) ≠ 0 ∧
    (main 3 ([tPreEven] : List (Step Nat)) 0 true contTrue = MainResult.exitPrivilege ∧
     exitCode (main 3 ([tPreEven] : List (Step Nat)) 0 true contTrue) = 1) :=
  ⟨by decide, requires_root_exit1 3 [tPreEven] 0 true contTrue (by decide)⟩

theorem final_banner_matches_phase_witness :
    (∀ s ∈ ([tPreEven, tPostNever] : List (Step Nat)), ∃ b, s.detector 1 = Except.ok b) ∧
    ((finalBanner (main 0 [tPreEven, tPostNever] 1 true contTrue) =
        some Banner.rebootInstruction ↔
      true = true ∧ (∃ s ∈ pre_steps [tPreEven, tPostNever], s.detector 1 = Except.ok false) ∧
      (execPending ((pre_steps [tPreEven, tPostNever]).filter
        (detFalseB (1 : Nat))) 1 contTrue 0).completed = true) ∧
     (finalBanner (main 0 [tPreEven, tPostNever] 1 true contTrue) =
        some Banner.setupComplete ↔
      true = true ∧ (∀ s ∈ pre_steps [tPreEven, tPostNever], s.detector 1 = Except.ok true) ∧
      (∃ s ∈ post_steps [tPreEven, tPostNever], s.detector 1 = Except.ok false) ∧
      (execPending ((post_steps [tPreEven, tPostNever]).filter
        (detFalseB (1 : Nat))) 1 contTrue 0).completed = true)) :=
  ⟨by decide, final_banner_matches_phase [tPreEven, tPostNever] 1 true contTrue (by decide)⟩

theorem detect_true_absent_from_pending_witness :
    tPreEven.detector 0 = Except.ok true ∧
    pendingOf [tPreEven] 0 = Except.ok [] ∧
    tPreEven ∉ ([] : List (Step Nat)) :=
  ⟨rfl, rfl, detect_true_absent_from_pending [tPreEven] 0 tPreEven rfl [] rfl⟩

theorem pending_deterministic_witness :
    (∀ s ∈ ([tPreEven, tPostNever] : List (Step Nat)), s.detector 1 = s.detector 3) ∧
    phaseShown (main 0 [tPreEven, tPostNever] 1 true contTrue) =
      phaseShown (main 0 [tPreEven, tPostNever] 3 true contTrue) :=
  ⟨by decide, pending_deterministic [tPreEven, tPostNever] 1 3 true contTrue (by decide)⟩

set_option maxRecDepth 100000 in
theorem set_hostname_never_done_witness :
    allDetect (pre_steps STEPS) stReady = Except.ok true ∧
    (∃ sh, phaseShown (main 0 STEPS stReady true contTrue) = some (false, sh) ∧
           "Set Hostname" ∈ sh) :=
  ⟨by decide, set_hostname_never_done.2.2.2 stReady true contTrue (by decide)⟩

theorem detector_exception_uncaught_witness :
    stCrash.homeUbuntuExists = false ∧ stCrash.sudoersContent = none ∧
    (default_user_removed stCrash =
       Except.error (PyErr.fileNotFound "/etc/sudoers.d/90-cloud-init-users") ∧
     main 0 STEPS stCrash true contTrue =
       MainResult.uncaught (PyErr.fileNotFound "/etc/sudoers.d/90-cloud-init-users") ∧
     exitCode (main 0 STEPS stCrash true contTrue) = 1 ∧
     phaseShown (main 0 STEPS stCrash true contTrue) = none) :=
  ⟨rfl, rfl, detector_exception_uncaught stCrash true contTrue rfl rfl⟩

end Crostini
